import Mathlib

/-!
Shallow embedding of the ScanScorecards extraction-strategy dispatcher and
confidence-assessment pipeline (src/llm/confidence.py, src/llm/prompts.py,
src/llm/strategies.py, src/llm/scorecard_extractor.py, and the domain models
under src/models/), together with theorems settling the specification claims.

Conventions of the embedding:
* Python floats (confidence scores, ratings) are modelled as exact rationals.
* Python `round(x, 4)` (round-half-to-even on the 4th decimal) is modelled by
  `round4` below, built on a round-half-to-even integer rounding.
* `Optional[T]` is `Option T`; Python dicts whose insertion order and
  overwrite semantics matter are modelled as association lists with a
  `dictInsert` operation mirroring `d[k] = v`.
* Fallible construction and external effects (the model call, the repository
  lookup) are modelled by explicit parameters and result inductives.
-/

namespace ScanScorecards

/-- Round-half-to-even of a rational to an integer, the rounding used by
Python's builtin `round`.  `q.num / q.den` is `⌊q⌋` (`Rat.floor_def`),
spelled out so that the function evaluates by kernel reduction. -/
def roundHalfEven (q : ℚ) : ℤ :=
  let f : ℤ := q.num / (q.den : ℤ)
  let r : ℚ := q - f
  if r < 1/2 then f
  else if 1/2 < r then f + 1
  else if f % 2 = 0 then f else f + 1

/-- Python `round(q, 4)`: round to 4 decimal places, half to even. -/
def round4 (q : ℚ) : ℚ := (roundHalfEven (q * 10000) : ℚ) / 10000

/-- Confidence buckets, from `ConfidenceLevel` in src/llm/confidence.py. -/
inductive ConfidenceLevel where
  | high
  | medium
  | low
  | veryLow
deriving DecidableEq, Repr

/-- `FieldConfidence.compute_final` (src/llm/confidence.py):
`round(llm_conf * val_conf, 4)`. -/
def compute_final (llm_conf val_conf : ℚ) : ℚ :=
  round4 (llm_conf * val_conf)

/-- `FieldConfidence.to_level` (src/llm/confidence.py). -/
def to_level (score : ℚ) : ConfidenceLevel :=
  if score ≥ 85/100 then ConfidenceLevel.high
  else if score ≥ 60/100 then ConfidenceLevel.medium
  else if score ≥ 30/100 then ConfidenceLevel.low
  else ConfidenceLevel.veryLow

-- Basic bounds for the rounding helpers are proved in the theorems section
-- below.

-- ---------------------------------------------------------------------------
-- Data model: annotated fields and raw extraction shapes (src/llm/prompts.py)
-- ---------------------------------------------------------------------------

/-- `AnnotatedStringField` / `AnnotatedIntField` / `AnnotatedFloatField` /
`AnnotatedBoolField` (src/llm/prompts.py): a `(value, confidence)` pair. -/
structure AnnotatedField (α : Type) where
  value : Option α := none
  confidence : ℚ := 0
deriving DecidableEq, Repr

/-- `RawCourseData` (src/llm/prompts.py). -/
structure RawCourseData where
  name : AnnotatedField String := {}
  location : AnnotatedField String := {}
  par : AnnotatedField ℤ := {}
deriving DecidableEq, Repr

/-- `RawTeeYardage` (src/llm/prompts.py). -/
structure RawTeeYardage where
  hole_number : ℤ
  yardage : AnnotatedField ℤ := {}
deriving DecidableEq, Repr

/-- `RawTeeData` (src/llm/prompts.py). -/
structure RawTeeData where
  color : AnnotatedField String := {}
  slope_rating : AnnotatedField ℚ := {}
  course_rating : AnnotatedField ℚ := {}
  hole_yardages : List RawTeeYardage := []
deriving DecidableEq, Repr

/-- `RawHoleData` (src/llm/prompts.py). -/
structure RawHoleData where
  hole_number : AnnotatedField ℤ := {}
  par : AnnotatedField ℤ := {}
  handicap : AnnotatedField ℤ := {}
  strokes : AnnotatedField ℤ := {}
  putts : AnnotatedField ℤ := {}
  fairway_hit : AnnotatedField Bool := {}
  green_in_regulation : AnnotatedField Bool := {}
deriving DecidableEq, Repr

/-- `RawTotalsData` (src/llm/prompts.py). -/
structure RawTotalsData where
  total_score : AnnotatedField ℤ := {}
  front_nine_score : AnnotatedField ℤ := {}
  back_nine_score : AnnotatedField ℤ := {}
  total_putts : AnnotatedField ℤ := {}
deriving DecidableEq, Repr

/-- `RawScorecardExtraction` (src/llm/prompts.py). -/
structure RawScorecardExtraction where
  course : RawCourseData := {}
  tees : List RawTeeData := []
  tee_played : AnnotatedField String := {}
  date : AnnotatedField String := {}
  player_name : AnnotatedField String := {}
  holes : List RawHoleData := []
  totals : RawTotalsData := {}
  notes : AnnotatedField String := {}
deriving DecidableEq, Repr

/-- `RawScoreOnlyHoleData` (src/llm/prompts.py). -/
structure RawScoreOnlyHoleData where
  hole_number : AnnotatedField ℤ := {}
  score : AnnotatedField ℤ := {}
  putts : AnnotatedField ℤ := {}
deriving DecidableEq, Repr

/-- `RawScoresOnlyExtraction` (src/llm/prompts.py). -/
structure RawScoresOnlyExtraction where
  to_par_scoring : AnnotatedField Bool := {}
  date : AnnotatedField String := {}
  player_name : AnnotatedField String := {}
  holes : List RawScoreOnlyHoleData := []
deriving DecidableEq, Repr

/-- `RawCourseIdentification` (src/llm/prompts.py). -/
structure RawCourseIdentification where
  course_name : AnnotatedField String := {}
  course_location : AnnotatedField String := {}
deriving DecidableEq, Repr

-- ---------------------------------------------------------------------------
-- Domain models (src/models/hole.py, tee.py, course.py, hole_score.py,
-- round.py), restricted to the attributes this pipeline reads or writes.
-- Pydantic construction-time validation (field range constraints and model
-- validators) raises on out-of-range input, so object construction is
-- fallible: it is modelled by the checked constructors `mkHole`, `mkTee`,
-- `mkCourse` and `mkHoleScore` below, returning `Except String`.  The
-- duplicate `Tee` class declared locally in course.py is shadowed by
-- models/__init__.py exporting tee.py's `Tee` (which the extractor and the
-- repository's own tests construct); tees are therefore validated per
-- tee.py plus Course's own validators.
-- ---------------------------------------------------------------------------

/-- `Hole` (src/models/hole.py). -/
structure Hole where
  number : Option ℤ := none
  par : Option ℤ := none
  handicap : Option ℤ := none
  course_id : Option String := none
deriving DecidableEq, Repr

/-- Python ordered-dict assignment `d[k] = v`: overwrite in place when the key
exists, else append. -/
def dictInsert {κ α : Type} [DecidableEq κ]
    (m : List (κ × α)) (k : κ) (v : α) : List (κ × α) :=
  if m.any (fun e => e.1 = k) then
    m.map (fun e => if e.1 = k then (k, v) else e)
  else m ++ [(k, v)]

/-- Python dict lookup `d.get(k, dflt)` on the association-list encoding. -/
def dictGet {κ α : Type} [DecidableEq κ]
    (m : List (κ × α)) (k : κ) (dflt : α) : α :=
  match m.find? (fun e => e.1 = k) with
  | some e => e.2
  | none => dflt

/-- `Tee` (src/models/tee.py), as constructed by the extractor. -/
structure Tee where
  color : Option String := none
  total_yardage : Option ℤ := none
  slope_rating : Option ℚ := none
  course_rating : Option ℚ := none
  course_id : Option String := none
  hole_yardages : List (ℤ × ℤ) := []
deriving DecidableEq, Repr

/-- `Course` (src/models/course.py), the attributes used by the pipeline.
`slope_rating` / `course_rating` are the course-level per-tee-color dicts
(declared `Dict[str, float]`, default empty). -/
structure Course where
  id : Option String := none
  name : Option String := none
  location : Option String := none
  slope_rating : List (String × ℚ) := []
  course_rating : List (String × ℚ) := []
  par : Option ℤ := none
  holes : List Hole := []
  tees : List Tee := []
deriving DecidableEq, Repr

/-- `Course.get_hole` (src/models/course.py): `holes[number - 1]` when
`1 <= number <= len(holes)`, else `None`. -/
def Course.get_hole (c : Course) (number : ℤ) : Option Hole :=
  if 1 ≤ number ∧ number ≤ (c.holes.length : ℤ) then
    c.holes.get? (number - 1).toNat
  else none

/-- `HoleScore` (src/models/hole_score.py), the attributes the extractor
sets. -/
structure HoleScore where
  hole_number : Option ℤ := none
  strokes : Option ℤ := none
  putts : Option ℤ := none
  fairway_hit : Option Bool := none
  green_in_regulation : Option Bool := none
deriving DecidableEq, Repr

/-- A parsed `datetime` restricted to its date part. -/
structure ParsedDate where
  year : ℕ
  month : ℕ
  day : ℕ
deriving DecidableEq, Repr

/-- `Round` (src/models/round.py), the attributes the extractor sets. -/
structure Round where
  course : Option Course := none
  tee_box : Option String := none
  date : Option ParsedDate := none
  hole_scores : List HoleScore := []
  total_putts : Option ℤ := none
  notes : Option String := none
deriving DecidableEq, Repr

-- Checked constructors: pydantic validation at object construction.
-- Field constraints are checked in field declaration order, then the model
-- validators, exactly as pydantic does; the messages of the `raise
-- ValueError(...)` sites are reproduced, those of bare `Field(ge=..,le=..)`
-- constraints are abridged.

/-- `None`-tolerant range violation test for a `Field(ge=lo, le=hi)`
constraint on an optional int. -/
def optOutside (v : Option ℤ) (lo hi : ℤ) : Bool :=
  match v with
  | some n => n < lo ∨ n > hi
  | none => false

/-- `None`-tolerant range violation test on an optional float. -/
def optOutsideQ (v : Option ℚ) (lo hi : ℚ) : Bool :=
  match v with
  | some x => x < lo ∨ x > hi
  | none => false

/-- `Hole(...)` construction (src/models/hole.py): `number` in 1–18, `par`
in 3–6, `handicap` in 1–18, each when present. -/
def mkHole (number par handicap : Option ℤ) : Except String Hole :=
  if optOutside number 1 18 then
    Except.error (r"Hole number outside 1-18")
  else if optOutside par 3 6 then
    Except.error (r"Hole par outside 3-6")
  else if optOutside handicap 1 18 then
    Except.error (r"Hole handicap outside 1-18")
  else Except.ok { number := number, par := par, handicap := handicap }

def yardHoleNumMsg (hole_num : ℤ) : String :=
  r"Hole number " ++ toString hole_num ++ r" must be 1-18"

def yardNegMsg (hole_num : ℤ) : String :=
  r"Yardage for hole " ++ toString hole_num ++ r" cannot be negative"

def yardHighMsg (yardage hole_num : ℤ) : String :=
  r"Yardage " ++ toString yardage ++ r" for hole " ++ toString hole_num
    ++ r" seems too high. Please verify."

/-- The message for the first `hole_yardages` entry violating the tee.py
validator (checks in the source's per-item order). -/
def badYardageMsg (e : ℤ × ℤ) : String :=
  if e.1 < 1 ∨ e.1 > 18 then yardHoleNumMsg e.1
  else if e.2 < 0 then yardNegMsg e.1
  else yardHighMsg e.2 e.1

/-- `Tee(...)` construction (src/models/tee.py): slope 55–155 and rating
55–85 when present, and the `hole_yardages` validator (keys 1–18, yardage
in 0–700). -/
def mkTee (color : Option String) (slope_rating course_rating : Option ℚ)
    (hole_yardages : List (ℤ × ℤ)) : Except String Tee :=
  if optOutsideQ slope_rating 55 155 then
    Except.error (r"Tee slope_rating outside 55-155")
  else if optOutsideQ course_rating 55 85 then
    Except.error (r"Tee course_rating outside 55-85")
  else
    match hole_yardages.find?
        (fun e => e.1 < 1 ∨ e.1 > 18 ∨ e.2 < 0 ∨ e.2 > 700) with
    | some e => Except.error (badYardageMsg e)
    | none =>
      Except.ok
        { color := color
          slope_rating := slope_rating
          course_rating := course_rating
          hole_yardages := hole_yardages }

def dictHasKey (m : List (String × ℚ)) (k : String) : Bool :=
  m.any (fun e => e.1 = k)

/-- Python truthiness of `tee.color` (`None` and `""` are falsy). -/
def colorTruthy (c : Option String) : Bool :=
  match c with
  | some s => !s.isEmpty
  | none => false

/-- The tee test of `validate_tee_rating_consistency` (src/models/course.py):
a truthy-colored tee must have entries in both course-level rating dicts. -/
def teeInconsistent (slope_rating course_rating : List (String × ℚ))
    (t : Tee) : Bool :=
  match t.color with
  | some c =>
    !c.isEmpty && (!(dictHasKey slope_rating c) || !(dictHasKey course_rating c))
  | none => false

def slopeValueMsg (v : ℚ) : String :=
  r"Slope " ++ toString v ++ r" outside USGA range (55-155)"

def ratingValueMsg (v : ℚ) : String :=
  r"Course rating " ++ toString v ++ r" outside range (55-85)"

def teeMissingSlopeMsg (c : String) : String :=
  r"Tee '" ++ c ++ r"' missing slope rating"

def teeMissingRatingMsg (c : String) : String :=
  r"Tee '" ++ c ++ r"' missing course rating"

/-- The message when `validate_tee_rating_consistency` rejects a tee: the
slope-rating check fires before the course-rating one. -/
def inconsistentTeeMsg (slope_rating : List (String × ℚ)) (t : Tee) :
    String :=
  match t.color with
  | some c =>
    if !(dictHasKey slope_rating c) then teeMissingSlopeMsg c
    else teeMissingRatingMsg c
  | none => teeMissingRatingMsg (r"")

/-- `Course(...)` construction (src/models/course.py): the
`slope_rating` / `course_rating` dict value validators, the `par` 54–80
field constraint, then the `validate_tee_rating_consistency` model
validator (every truthy-colored tee needs entries in both rating dicts). -/
def mkCourse (name location : Option String)
    (slope_rating course_rating : List (String × ℚ)) (par : Option ℤ)
    (holes : List Hole) (tees : List Tee) : Except String Course :=
  match slope_rating.find? (fun e => e.2 < 55 ∨ e.2 > 155) with
  | some e => Except.error (slopeValueMsg e.2)
  | none =>
    match course_rating.find? (fun e => e.2 < 55 ∨ e.2 > 85) with
    | some e => Except.error (ratingValueMsg e.2)
    | none =>
      if optOutside par 54 80 then
        Except.error (r"Course par outside 54-80")
      else
        match tees.find? (teeInconsistent slope_rating course_rating) with
        | some t => Except.error (inconsistentTeeMsg slope_rating t)
        | none =>
          Except.ok
            { name := name
              location := location
              slope_rating := slope_rating
              course_rating := course_rating
              par := par
              holes := holes
              tees := tees }

def puttsExceedMsg (p s : ℤ) : String :=
  r"Putts (" ++ toString p ++ r") cannot exceed strokes (" ++ toString s
    ++ r")"

/-- `HoleScore(...)` construction (src/models/hole_score.py): hole number
1–18, strokes 1–15, putts 0–10, then the `validate_score_consistency` model
validator (putts cannot exceed strokes; the fairway-hit-on-par-3 branch
needs the `hole` attribute, which the extractor never passes). -/
def mkHoleScore (hole_number strokes putts : Option ℤ)
    (fairway_hit green_in_regulation : Option Bool) :
    Except String HoleScore :=
  if optOutside hole_number 1 18 then
    Except.error (r"HoleScore hole_number outside 1-18")
  else if optOutside strokes 1 15 then
    Except.error (r"HoleScore strokes outside 1-15")
  else if optOutside putts 0 10 then
    Except.error (r"HoleScore putts outside 0-10")
  else
    match strokes, putts with
    | some s, some p =>
      if p > s then Except.error (puttsExceedMsg p s)
      else
        Except.ok
          { hole_number := hole_number
            strokes := strokes
            putts := putts
            fairway_hit := fairway_hit
            green_in_regulation := green_in_regulation }
    | _, _ =>
      Except.ok
        { hole_number := hole_number
          strokes := strokes
          putts := putts
          fairway_hit := fairway_hit
          green_in_regulation := green_in_regulation }

/-- A Python `for` loop constructing one object per element: the first
construction error aborts the loop. -/
def exceptMapList {α β : Type} (f : α → Except String β) :
    List α → Except String (List β)
  | [] => Except.ok []
  | x :: xs =>
    match f x with
    | Except.error e => Except.error e
    | Except.ok y =>
      match exceptMapList f xs with
      | Except.error e => Except.error e
      | Except.ok ys => Except.ok (y :: ys)

-- ---------------------------------------------------------------------------
-- Date parsing (src/llm/scorecard_extractor.py `_parse_date`)
-- ---------------------------------------------------------------------------

def daysInMonth (y m : ℕ) : ℕ :=
  if m = 2 then (if (y % 4 = 0 ∧ y % 100 ≠ 0) ∨ y % 400 = 0 then 29 else 28)
  else if m = 4 ∨ m = 6 ∨ m = 9 ∨ m = 11 then 30
  else 31

def isDigitStr (s : String) : Bool :=
  !s.isEmpty && s.all Char.isDigit

/-- `_parse_date`: parse a `YYYY-MM-DD` string with `strptime("%Y-%m-%d")`
(4-digit year, 1–2 digit month/day, calendar-valid), returning `none` on
absent, empty or unparsable input. -/
def parse_date (date_str : Option String) : Option ParsedDate :=
  match date_str with
  | none => none
  | some s =>
    if s.isEmpty then none
    else
      match s.splitOn (r"-") with
      | [y, m, d] =>
        if y.length = 4 && isDigitStr y
            && decide (1 ≤ m.length) && decide (m.length ≤ 2) && isDigitStr m
            && decide (1 ≤ d.length) && decide (d.length ≤ 2) && isDigitStr d then
          let yn := (y.toNat?).getD 0
          let mn := (m.toNat?).getD 0
          let dn := (d.toNat?).getD 0
          if 1 ≤ yn ∧ 1 ≤ mn ∧ mn ≤ 12 ∧ 1 ≤ dn ∧ dn ≤ daysInMonth yn mn then
            some ⟨yn, mn, dn⟩
          else none
        else none
      | _ => none

-- ---------------------------------------------------------------------------
-- Domain conversion (src/llm/scorecard_extractor.py)
-- ---------------------------------------------------------------------------

/-- The hole-loop body of `_build_course`: one validated `Hole` per raw
hole. -/
def buildRawHole (raw_hole : RawHoleData) : Except String Hole :=
  mkHole raw_hole.hole_number.value raw_hole.par.value
    raw_hole.handicap.value

/-- The tee-loop body of `_build_course`: gather the non-null yardages into
a dict, then construct a validated `Tee`. -/
def buildRawTee (raw_tee : RawTeeData) : Except String Tee :=
  let yardages : List (ℤ × ℤ) := raw_tee.hole_yardages.foldl
    (fun acc yd_entry =>
      match yd_entry.yardage.value with
      | some v => dictInsert acc yd_entry.hole_number v
      | none => acc) []
  mkTee raw_tee.color.value raw_tee.slope_rating.value
    raw_tee.course_rating.value yardages

/-- `_build_course`: copy raw annotated values into `Hole`s, `Tee`s and a
`Course`, each construction validated (the first pydantic `ValidationError`
propagates).  The course-level `slope_rating` / `course_rating` dicts are
never passed, so they default to empty. -/
def build_course (raw : RawScorecardExtraction) : Except String Course :=
  match exceptMapList buildRawHole raw.holes with
  | Except.error e => Except.error e
  | Except.ok holes =>
    match exceptMapList buildRawTee raw.tees with
    | Except.error e => Except.error e
    | Except.ok tees =>
      mkCourse raw.course.name.value raw.course.location.value [] []
        raw.course.par.value holes tees

/-- `_build_hole_scores`: copy raw annotated values into `HoleScore`s, each
construction validated. -/
def build_hole_scores (raw : RawScorecardExtraction) :
    Except String (List HoleScore) :=
  exceptMapList (fun raw_hole =>
    mkHoleScore raw_hole.hole_number.value raw_hole.strokes.value
      raw_hole.putts.value raw_hole.fairway_hit.value
      raw_hole.green_in_regulation.value) raw.holes

/-- `_build_round`: assemble the `Round` from a full extraction (course
first, then hole scores, as in the source; a construction error anywhere
propagates).  `tee_box` is `raw.tee_played.value`, with no fallback. -/
def build_round (raw : RawScorecardExtraction) : Except String Round :=
  match build_course raw with
  | Except.error e => Except.error e
  | Except.ok course =>
    match build_hole_scores raw with
    | Except.error e => Except.error e
    | Except.ok hole_scores =>
      Except.ok
        { course := some course
          tee_box := raw.tee_played.value
          date := parse_date raw.date.value
          hole_scores := hole_scores
          total_putts := raw.totals.total_putts.value
          notes := raw.notes.value }

/-- `_convert_score_to_strokes`: `None` for a `None` raw score; `par + raw`
when `to_par_scoring` and the par is present; otherwise the raw score
unchanged. -/
def convert_score_to_strokes
    (raw_score : Option ℤ) (par : Option ℤ) (to_par_scoring : Bool) :
    Option ℤ :=
  match raw_score with
  | none => none
  | some s =>
    match to_par_scoring, par with
    | true, some p => some (p + s)
    | _, _ => some s

/-- Python truthiness of `raw.to_par_scoring.value is True`. -/
def toParFlag (raw : RawScoresOnlyExtraction) : Bool :=
  match raw.to_par_scoring.value with
  | some b => b
  | none => false

/-- The known hole looked up in `_build_round_from_scores`:
`course.get_hole(hole_num) if hole_num else None` (`0` is falsy). -/
def knownHoleFor (course : Course) (hole_num : Option ℤ) : Option Hole :=
  match hole_num with
  | some n => if n ≠ 0 then course.get_hole n else none
  | none => none

/-- `_build_round_from_scores`: build a `Round` from a scores-only
extraction plus the known course, converting scores and summing putts in
code.  Each `HoleScore` construction is validated, so a construction error
propagates. -/
def build_round_from_scores
    (raw : RawScoresOnlyExtraction) (course : Course) :
    Except String Round :=
  let to_par := toParFlag raw
  match exceptMapList (fun raw_hole =>
      let hole_num := raw_hole.hole_number.value
      let known_hole := knownHoleFor course hole_num
      let known_par : Option ℤ :=
        match known_hole with
        | some h => h.par
        | none => none
      let strokes :=
        convert_score_to_strokes raw_hole.score.value known_par to_par
      mkHoleScore hole_num strokes raw_hole.putts.value none none)
      raw.holes with
  | Except.error e => Except.error e
  | Except.ok hole_scores =>
    let all_putts := hole_scores.filterMap (fun s => s.putts)
    let total_putts : Option ℤ :=
      if all_putts.isEmpty then none else some all_putts.sum
    Except.ok
      { course := some course
        tee_box := none
        date := parse_date raw.date.value
        hole_scores := hole_scores
        total_putts := total_putts }

-- ---------------------------------------------------------------------------
-- Validation engine (src/llm/scorecard_extractor.py).  Each validator maps
-- raw values to an ordered dict `field name -> (validation confidence,
-- flags)`, modelled as an association list.
-- ---------------------------------------------------------------------------

def strokesRangeMsg (v : ℤ) : String :=
  r"Strokes " ++ toString v ++ r" outside valid range 1-15"

def strokesHighMsg (v : ℤ) : String :=
  r"Strokes " ++ toString v ++ r" is unusually high"

def puttsRangeMsg (v : ℤ) : String :=
  r"Putts " ++ toString v ++ r" outside valid range 0-10"

def puttsHighMsg (v : ℤ) : String :=
  r"Putts " ++ toString v ++ r" is unusually high"

def puttsGtStrokesMsg (p s : ℤ) : String :=
  r"Putts (" ++ toString p ++ r") > strokes (" ++ toString s ++ r")"

/-- `_validate_strokes_putts`: range and cross-field checks shared by the
full and scores-only paths. -/
def validate_strokes_putts (strokes_value putts_value : Option ℤ) :
    List (String × ℚ × List String) :=
  let strokesBase : ℚ × List String :=
    match strokes_value with
    | none => (1, [])
    | some v =>
      if v < 1 ∨ v > 15 then (0, [strokesRangeMsg v])
      else if v > 10 then (7/10, [strokesHighMsg v])
      else (1, [])
  let puttsBase : ℚ × List String :=
    match putts_value with
    | none => (1, [])
    | some v =>
      if v < 0 ∨ v > 10 then (0, [puttsRangeMsg v])
      else if v > 4 then (4/5, [puttsHighMsg v])
      else (1, [])
  match strokes_value, putts_value with
  | some sv, some pv =>
    if pv > sv then
      let msg := puttsGtStrokesMsg pv sv
      [(r"strokes", (min strokesBase.1 (3/10), strokesBase.2 ++ [msg])),
       (r"putts", ((0 : ℚ), puttsBase.2 ++ [msg]))]
    else
      [(r"strokes", strokesBase), (r"putts", puttsBase)]
  | _, _ =>
    [(r"strokes", strokesBase), (r"putts", puttsBase)]

def girMsg (g : Bool) (shots par : ℤ) : String :=
  r"GIR=" ++ toString g ++ r" inconsistent with " ++ toString shots
    ++ r" shots to green on par " ++ toString par

/-- `_validate_gir`: GIR cross-check; fires only when all inputs present. -/
def validate_gir (gir_value : Option Bool)
    (strokes_value putts_value par_value : Option ℤ) : ℚ × List String :=
  match gir_value, strokes_value, putts_value, par_value with
  | some g, some s, some p, some par =>
    let shots_to_green := s - p
    let expected_gir : Bool := decide (shots_to_green ≤ par - 2)
    if g ≠ expected_gir then (1/2, [girMsg g shots_to_green par])
    else (1, [])
  | _, _, _, _ => (1, [])

def parRangeMsg (v : ℤ) : String :=
  r"Par " ++ toString v ++ r" outside valid range 3-6"

def handicapRangeMsg (v : ℤ) : String :=
  r"Handicap " ++ toString v ++ r" outside valid range 1-18"

def holeSeqMsg (expected got : ℤ) : String :=
  r"Expected hole " ++ toString expected ++ r", got " ++ toString got

/-- `_validate_hole_score`: per-hole validation for the full path. -/
def validate_hole_score (raw_hole : RawHoleData) (hole_index : ℕ) :
    List (String × ℚ × List String) :=
  let par_res : ℚ × List String :=
    match raw_hole.par.value with
    | none => (1, [])
    | some par =>
      if par < 3 ∨ par > 6 then (0, [parRangeMsg par]) else (1, [])
  let hc_res : ℚ × List String :=
    match raw_hole.handicap.value with
    | none => (1, [])
    | some hc =>
      if hc < 1 ∨ hc > 18 then (0, [handicapRangeMsg hc]) else (1, [])
  let expected : ℤ := (hole_index : ℤ) + 1
  let hn_res : ℚ × List String :=
    match raw_hole.hole_number.value with
    | none => (1, [])
    | some hn =>
      if hn ≠ expected then (3/10, [holeSeqMsg expected hn]) else (1, [])
  validate_strokes_putts raw_hole.strokes.value raw_hole.putts.value
    ++ [(r"par", par_res),
        (r"handicap", hc_res),
        (r"hole_number", hn_res),
        (r"green_in_regulation",
          validate_gir raw_hole.green_in_regulation.value raw_hole.strokes.value
            raw_hole.putts.value raw_hole.par.value),
        (r"fairway_hit", ((1 : ℚ), []))]

def scoreToParRangeMsg (s : ℤ) : String :=
  r"Score-to-par " ++ toString s ++ r" outside plausible range -4 to +10"

def puttsGtConvertedMsg (p t : ℤ) : String :=
  r"Putts (" ++ toString p ++ r") > converted strokes (" ++ toString t ++ r")"

/-- `_validate_score_only_hole`: per-hole validation for the scores-only
path. -/
def validate_score_only_hole (raw_hole : RawScoreOnlyHoleData)
    (hole_index : ℕ) (to_par_scoring : Bool) (known_hole : Option Hole) :
    List (String × ℚ × List String) :=
  let scoreBase : ℚ × List String :=
    match raw_hole.score.value with
    | none => (1, [])
    | some s =>
      if to_par_scoring then
        if s < -4 ∨ s > 10 then (0, [scoreToParRangeMsg s]) else (1, [])
      else
        if s < 1 ∨ s > 15 then (0, [strokesRangeMsg s])
        else if s > 10 then (7/10, [strokesHighMsg s])
        else (1, [])
  let puttsBase : ℚ × List String :=
    match raw_hole.putts.value with
    | none => (1, [])
    | some p =>
      if p < 0 ∨ p > 10 then (0, [puttsRangeMsg p])
      else if p > 4 then (4/5, [puttsHighMsg p])
      else (1, [])
  let expected : ℤ := (hole_index : ℤ) + 1
  let hn_res : ℚ × List String :=
    match raw_hole.hole_number.value with
    | none => (1, [])
    | some hn =>
      if hn ≠ expected then (3/10, [holeSeqMsg expected hn]) else (1, [])
  let base :=
    [(r"score", scoreBase), (r"putts", puttsBase), (r"hole_number", hn_res)]
  match raw_hole.score.value, raw_hole.putts.value with
  | some sv, some pv =>
    let known_par : Option ℤ :=
      match known_hole with
      | some h => h.par
      | none => none
    match convert_score_to_strokes (some sv) known_par to_par_scoring with
    | some total_strokes =>
      if pv > total_strokes then
        let msg := puttsGtConvertedMsg pv total_strokes
        [(r"score", (min scoreBase.1 (3/10), scoreBase.2 ++ [msg])),
         (r"putts", ((0 : ℚ), puttsBase.2 ++ [msg])),
         (r"hole_number", hn_res)]
      else base
    | none => base
  | _, _ => base

def totalScoreMsg (t calcd : ℤ) : String :=
  r"Total score " ++ toString t ++ r" != sum of hole strokes " ++ toString calcd

def frontNineMsg (f calcd : ℤ) : String :=
  r"Front nine " ++ toString f ++ r" != sum of holes 1-9: " ++ toString calcd

def backNineMsg (b calcd : ℤ) : String :=
  r"Back nine " ++ toString b ++ r" != sum of holes 10-18: " ++ toString calcd

def frontBackMsg (f b t : ℤ) : String :=
  r"Front (" ++ toString f ++ r") + Back (" ++ toString b ++ r") = "
    ++ toString (f + b) ++ r" != Total (" ++ toString t ++ r")"

def totalPuttsMsg (tp calcd : ℤ) : String :=
  r"Total putts " ++ toString tp ++ r" != sum of hole putts " ++ toString calcd

/-- `_validate_totals`: extracted totals against the sums of the
per-hole values, plus the front + back = total cross-check. -/
def validate_totals (totals : RawTotalsData) (holes_list : List RawHoleData) :
    List (String × ℚ × List String) :=
  let ts : ℚ × List String :=
    match totals.total_score.value with
    | none => (1, [])
    | some t =>
      let hole_strokes := holes_list.filterMap (fun h => h.strokes.value)
      if hole_strokes.isEmpty then (1, [])
      else if hole_strokes.sum ≠ t then (1/5, [totalScoreMsg t hole_strokes.sum])
      else (1, [])
  let fn : ℚ × List String :=
    match totals.front_nine_score.value with
    | none => (1, [])
    | some f =>
      let front := (holes_list.take 9).filterMap (fun h => h.strokes.value)
      if front.isEmpty then (1, [])
      else if front.sum ≠ f then (1/5, [frontNineMsg f front.sum])
      else (1, [])
  let bn : ℚ × List String :=
    match totals.back_nine_score.value with
    | none => (1, [])
    | some b =>
      let back := ((holes_list.drop 9).take 9).filterMap (fun h => h.strokes.value)
      if back.isEmpty then (1, [])
      else if back.sum ≠ b then (1/5, [backNineMsg b back.sum])
      else (1, [])
  let crossed : (ℚ × List String) × (ℚ × List String) × (ℚ × List String) :=
    match totals.front_nine_score.value, totals.back_nine_score.value,
        totals.total_score.value with
    | some f, some b, some t =>
      if f + b ≠ t then
        let msg := frontBackMsg f b t
        ((min ts.1 (3/10), ts.2 ++ [msg]),
         (min fn.1 (3/10), fn.2 ++ [msg]),
         (min bn.1 (3/10), bn.2 ++ [msg]))
      else (ts, fn, bn)
    | _, _, _ => (ts, fn, bn)
  let tp : ℚ × List String :=
    match totals.total_putts.value with
    | none => (1, [])
    | some t =>
      let hole_putts := holes_list.filterMap (fun h => h.putts.value)
      if hole_putts.isEmpty then (1, [])
      else if hole_putts.sum ≠ t then (1/5, [totalPuttsMsg t hole_putts.sum])
      else (1, [])
  [(r"total_score", crossed.1),
   (r"front_nine_score", crossed.2.1),
   (r"back_nine_score", crossed.2.2),
   (r"total_putts", tp)]

def courseParSumMsg (cp calcd : ℤ) : String :=
  r"Course par " ++ toString cp ++ r" != sum of hole pars " ++ toString calcd

def courseParRangeMsg (cp : ℤ) : String :=
  r"Course par " ++ toString cp ++ r" outside 54-80"

def slopeRangeMsg (label : String) (v : ℚ) : String :=
  label ++ r" slope " ++ toString v ++ r" outside valid range 55-155"

def courseRatingRangeMsg (label : String) (v : ℚ) : String :=
  label ++ r" course rating " ++ toString v ++ r" outside valid range 55.0-85.0"

def yardageRangeMsg (v : ℤ) : String :=
  r"Yardage " ++ toString v ++ r" outside plausible range 50-700"

/-- `tee_label = raw_tee.color.value or f"tee_{i}"` (Python truthiness:
`None` and the empty string both fall back). -/
def teeLabel (raw_tee : RawTeeData) (i : ℕ) : String :=
  match raw_tee.color.value with
  | some c => if c.isEmpty then r"tee_" ++ toString i else c
  | none => r"tee_" ++ toString i

/-- `_validate_course_fields`: course-level validation (full path only). -/
def validate_course_fields (raw : RawScorecardExtraction) :
    List (String × ℚ × List String) :=
  let cp : ℚ × List String :=
    match raw.course.par.value with
    | none => (1, [])
    | some cpv =>
      let hole_pars := raw.holes.filterMap (fun h => h.par.value)
      let afterSum : ℚ × List String :=
        if !hole_pars.isEmpty ∧ hole_pars.sum ≠ cpv then
          (3/10, [courseParSumMsg cpv hole_pars.sum])
        else (1, [])
      if cpv < 54 ∨ cpv > 80 then (0, afterSum.2 ++ [courseParRangeMsg cpv])
      else afterSum
  let init : List (String × ℚ × List String) := [(r"par", cp)]
  let afterTees := raw.tees.enum.foldl (fun acc p =>
    let label := teeLabel p.2 p.1
    let sr : ℚ × List String :=
      match p.2.slope_rating.value with
      | none => (1, [])
      | some v =>
        if v < 55 ∨ v > 155 then (0, [slopeRangeMsg label v]) else (1, [])
    let cr : ℚ × List String :=
      match p.2.course_rating.value with
      | none => (1, [])
      | some v =>
        if v < 55 ∨ v > 85 then (0, [courseRatingRangeMsg label v]) else (1, [])
    let acc1 := dictInsert acc (label ++ r"_slope_rating") sr
    let acc2 := dictInsert acc1 (label ++ r"_course_rating") cr
    let acc3 := dictInsert acc2 (label ++ r"_color") ((1 : ℚ), ([] : List String))
    p.2.hole_yardages.foldl (fun a yd_entry =>
      let yd : ℚ × List String :=
        match yd_entry.yardage.value with
        | none => (1, [])
        | some v =>
          if v < 50 ∨ v > 700 then (0, [yardageRangeMsg v]) else (1, [])
      dictInsert a
        (label ++ r"_hole_" ++ toString yd_entry.hole_number ++ r"_yardage")
        yd) acc3) init
  dictInsert (dictInsert afterTees (r"name") ((1 : ℚ), ([] : List String)))
    (r"location") ((1 : ℚ), ([] : List String))

-- ---------------------------------------------------------------------------
-- Confidence assembly (src/llm/confidence.py, src/llm/scorecard_extractor.py)
-- ---------------------------------------------------------------------------

/-- `FieldConfidence` (src/llm/confidence.py).  The code passes a `source`
keyword when building these, but the pydantic model declares no such field,
so it is dropped; accordingly it is not modelled here. -/
structure FieldConfidence where
  field_name : String
  llm_confidence : ℚ
  validation_confidence : ℚ := 1
  validation_flags : List String := []
  final_confidence : ℚ
  level : ConfidenceLevel
deriving DecidableEq, Repr

/-- `HoleConfidence` (src/llm/confidence.py); the `fields` dict is an
ordered association list. -/
structure HoleConfidence where
  hole_number : ℕ
  fields : List (String × FieldConfidence)
  overall : ℚ
  level : ConfidenceLevel
deriving DecidableEq, Repr

/-- `CourseConfidence` (src/llm/confidence.py). -/
structure CourseConfidence where
  fields : List (String × FieldConfidence)
  overall : ℚ
  level : ConfidenceLevel
deriving DecidableEq, Repr

/-- `ExtractionConfidence` (src/llm/confidence.py). -/
structure ExtractionConfidence where
  hole_scores : List HoleConfidence
  course : Option CourseConfidence
  round_fields : List (String × FieldConfidence)
  overall : ℚ
  level : ConfidenceLevel
  total_fields_extracted : ℕ
  fields_needing_review : List String
deriving DecidableEq, Repr

/-- Python `min(lst) if lst else 0.0`. -/
def minOrZero (l : List ℚ) : ℚ :=
  match l with
  | [] => 0
  | x :: xs => xs.foldl min x

/-- `_build_field_confidence`: combine LLM and validation confidence into a
`FieldConfidence` (the `source` argument is dropped by pydantic, see
`FieldConfidence`). -/
def build_field_confidence (field_name : String) (llm_confidence : ℚ)
    (val_conf : ℚ) (val_flags : List String) (_source : String) :
    FieldConfidence :=
  let final := compute_final llm_confidence val_conf
  { field_name := field_name
    llm_confidence := llm_confidence
    validation_confidence := val_conf
    validation_flags := val_flags
    final_confidence := final
    level := to_level final }

/-- `getattr(raw_hole, name, None)` followed by `.value is not None`, for a
full-extraction raw hole. -/
def RawHoleData.attrNonNull (h : RawHoleData) (name : String) : Bool :=
  if name = r"hole_number" then h.hole_number.value.isSome
  else if name = r"par" then h.par.value.isSome
  else if name = r"handicap" then h.handicap.value.isSome
  else if name = r"strokes" then h.strokes.value.isSome
  else if name = r"putts" then h.putts.value.isSome
  else if name = r"fairway_hit" then h.fairway_hit.value.isSome
  else if name = r"green_in_regulation" then h.green_in_regulation.value.isSome
  else false

/-- `getattr(raw_hole, name, None)` followed by `.value is not None`, for a
scores-only raw hole. -/
def RawScoreOnlyHoleData.attrNonNull (h : RawScoreOnlyHoleData)
    (name : String) : Bool :=
  if name = r"hole_number" then h.hole_number.value.isSome
  else if name = r"score" then h.score.value.isSome
  else if name = r"putts" then h.putts.value.isSome
  else false

/-- `_build_hole_confidence`: build per-field confidences from the LLM field
map and the validation results, then take the min over fields whose raw
source value is non-null (`attrNonNull`). -/
def build_hole_confidence (hole_index : ℕ) (attrNonNull : String → Bool)
    (field_map : List (String × ℚ))
    (val_results : List (String × ℚ × List String)) : HoleConfidence :=
  let fields : List (String × FieldConfidence) := field_map.map (fun p =>
    let vr := dictGet val_results p.1 (1, [])
    (p.1, build_field_confidence p.1 p.2 vr.1 vr.2 (r"llm")))
  let non_null_finals :=
    (fields.filter (fun p => attrNonNull p.2.field_name)).map
      (fun p => p.2.final_confidence)
  let overall := minOrZero non_null_finals
  { hole_number := hole_index + 1
    fields := fields
    overall := overall
    level := to_level overall }

/-- `fc.level in (ConfidenceLevel.LOW, ConfidenceLevel.VERY_LOW)`. -/
def needsReview (l : ConfidenceLevel) : Bool :=
  match l with
  | ConfidenceLevel.low => true
  | ConfidenceLevel.veryLow => true
  | _ => false

/-- Python `f"{q:.2f}"` on our rational model. -/
def formatQ2 (q : ℚ) : String :=
  let n := roundHalfEven (q * 100)
  let frac := (n % 100).natAbs
  toString (n / 100) ++ r"." ++ (if frac < 10 then r"0" else r"") ++ toString frac

def reviewDetail (fc : FieldConfidence) : String :=
  if fc.validation_flags.isEmpty then r"low LLM confidence"
  else String.intercalate (r", ") fc.validation_flags

def holeReviewLine (hole_number : ℕ) (fname : String)
    (fc : FieldConfidence) : String :=
  r"Hole " ++ toString hole_number ++ r" " ++ fname ++ r": "
    ++ formatQ2 fc.final_confidence ++ r" (" ++ reviewDetail fc ++ r")"

def courseReviewLine (fname : String) (fc : FieldConfidence) : String :=
  r"Course " ++ fname ++ r": " ++ formatQ2 fc.final_confidence
    ++ r" (" ++ reviewDetail fc ++ r")"

def roundReviewLine (fname : String) (fc : FieldConfidence) : String :=
  fname ++ r": " ++ formatQ2 fc.final_confidence

/-- `_collect_fields_needing_review`: one human-readable line per field at
LOW or VERY_LOW confidence, over hole, course and round fields. -/
def collect_fields_needing_review (hole_confidences : List HoleConfidence)
    (course_fields round_fields : List (String × FieldConfidence)) :
    List String :=
  (hole_confidences.map (fun hc =>
    (hc.fields.filter (fun p => needsReview p.2.level)).map
      (fun p => holeReviewLine hc.hole_number p.1 p.2))).flatten
  ++ (course_fields.filter (fun p => needsReview p.2.level)).map
      (fun p => courseReviewLine p.1 p.2)
  ++ (round_fields.filter (fun p => needsReview p.2.level)).map
      (fun p => roundReviewLine p.1 p.2)

/-- `_assemble_extraction_confidence`: min over hole overalls, the course
overall and round-field finals; collect the review list; count fields. -/
def assemble_extraction_confidence (hole_confidences : List HoleConfidence)
    (course_confidence : CourseConfidence)
    (round_fields : List (String × FieldConfidence)) : ExtractionConfidence :=
  let all_finals :=
    hole_confidences.map (fun hc => hc.overall)
      ++ [course_confidence.overall]
      ++ round_fields.map (fun p => p.2.final_confidence)
  let overall := minOrZero all_finals
  let fields_needing_review :=
    collect_fields_needing_review hole_confidences course_confidence.fields
      round_fields
  let total_fields :=
    (hole_confidences.map (fun hc => hc.fields.length)).sum
      + course_confidence.fields.length + round_fields.length
  { hole_scores := hole_confidences
    course := some course_confidence
    round_fields := round_fields
    overall := overall
    level := to_level overall
    total_fields_extracted := total_fields
    fields_needing_review := fields_needing_review }

/-- The per-hole LLM-confidence field map of `_build_extraction_confidence`. -/
def fullHoleFieldMap (raw_hole : RawHoleData) : List (String × ℚ) :=
  [(r"hole_number", raw_hole.hole_number.confidence),
   (r"par", raw_hole.par.confidence),
   (r"handicap", raw_hole.handicap.confidence),
   (r"strokes", raw_hole.strokes.confidence),
   (r"putts", raw_hole.putts.confidence),
   (r"fairway_hit", raw_hole.fairway_hit.confidence),
   (r"green_in_regulation", raw_hole.green_in_regulation.confidence)]

/-- The course-confidence part of `_build_extraction_confidence`.  Note the
`course_non_null` variable of the code collects the finals of *all* fields
of the map, with no non-null-source filtering. -/
def build_course_confidence_full (raw : RawScorecardExtraction) :
    CourseConfidence :=
  let course_val := validate_course_fields raw
  let course_llm_map : List (String × ℚ) :=
    raw.tees.enum.foldl (fun acc p =>
      let label := teeLabel p.2 p.1
      let acc1 := dictInsert acc (label ++ r"_color") p.2.color.confidence
      let acc2 :=
        dictInsert acc1 (label ++ r"_slope_rating") p.2.slope_rating.confidence
      let acc3 :=
        dictInsert acc2 (label ++ r"_course_rating")
          p.2.course_rating.confidence
      p.2.hole_yardages.foldl (fun a yd_entry =>
        dictInsert a
          (label ++ r"_hole_" ++ toString yd_entry.hole_number ++ r"_yardage")
          yd_entry.yardage.confidence) acc3)
      [(r"name", raw.course.name.confidence),
       (r"location", raw.course.location.confidence),
       (r"par", raw.course.par.confidence)]
  let course_fields : List (String × FieldConfidence) :=
    course_llm_map.map (fun p =>
      let vr := dictGet course_val p.1 (1, [])
      (p.1, build_field_confidence p.1 p.2 vr.1 vr.2 (r"llm")))
  let course_non_null := course_fields.map (fun p => p.2.final_confidence)
  let course_overall := minOrZero course_non_null
  { fields := course_fields
    overall := course_overall
    level := to_level course_overall }

/-- `_build_extraction_confidence`: full confidence report for the full
extraction path. -/
def build_extraction_confidence (raw : RawScorecardExtraction) :
    ExtractionConfidence :=
  let hole_confidences := raw.holes.enum.map (fun p =>
    build_hole_confidence p.1 (RawHoleData.attrNonNull p.2)
      (fullHoleFieldMap p.2) (validate_hole_score p.2 p.1))
  let course_confidence := build_course_confidence_full raw
  let totals_val := validate_totals raw.totals raw.holes
  let totalsField := fun (fname : String) (llm_conf : ℚ) =>
    let vr := dictGet totals_val fname (1, [])
    (fname, build_field_confidence fname llm_conf vr.1 vr.2 (r"llm"))
  let round_fields : List (String × FieldConfidence) :=
    [(r"date",
      build_field_confidence (r"date") raw.date.confidence 1 [] (r"llm")),
     (r"player_name",
      build_field_confidence (r"player_name") raw.player_name.confidence 1 []
        (r"llm")),
     (r"notes",
      build_field_confidence (r"notes") raw.notes.confidence 1 [] (r"llm")),
     totalsField (r"total_score") raw.totals.total_score.confidence,
     totalsField (r"front_nine_score") raw.totals.front_nine_score.confidence,
     totalsField (r"back_nine_score") raw.totals.back_nine_score.confidence,
     totalsField (r"total_putts") raw.totals.total_putts.confidence]
  assemble_extraction_confidence hole_confidences course_confidence
    round_fields

/-- The per-hole LLM-confidence field map of `_build_scores_only_confidence`. -/
def scoresOnlyHoleFieldMap (raw_hole : RawScoreOnlyHoleData) :
    List (String × ℚ) :=
  [(r"hole_number", raw_hole.hole_number.confidence),
   (r"score", raw_hole.score.confidence),
   (r"putts", raw_hole.putts.confidence)]

/-- The fixed course confidence used when the course came from the
database. -/
def databaseCourseConfidence : CourseConfidence :=
  { fields :=
      [(r"source",
        build_field_confidence (r"source") 1 1 [] (r"database"))]
    overall := 1
    level := ConfidenceLevel.high }

/-- `_build_scores_only_confidence`: confidence report for the scores-only
path; the course confidence is the fixed database one. -/
def build_scores_only_confidence (raw : RawScoresOnlyExtraction)
    (course : Course) : ExtractionConfidence :=
  let to_par := toParFlag raw
  let hole_confidences := raw.holes.enum.map (fun p =>
    let known_hole := course.get_hole ((p.1 : ℤ) + 1)
    build_hole_confidence p.1 (RawScoreOnlyHoleData.attrNonNull p.2)
      (scoresOnlyHoleFieldMap p.2)
      (validate_score_only_hole p.2 p.1 to_par known_hole))
  let round_fields : List (String × FieldConfidence) :=
    [(r"date",
      build_field_confidence (r"date") raw.date.confidence 1 [] (r"llm")),
     (r"player_name",
      build_field_confidence (r"player_name") raw.player_name.confidence 1 []
        (r"llm")),
     (r"to_par_scoring",
      build_field_confidence (r"to_par_scoring") raw.to_par_scoring.confidence
        1 [] (r"llm"))]
  assemble_extraction_confidence hole_confidences databaseCourseConfidence
    round_fields

-- ---------------------------------------------------------------------------
-- Strategy dispatcher (src/llm/scorecard_extractor.py, src/llm/strategies.py)
-- ---------------------------------------------------------------------------

/-- Which path `_extract_smart` delegates to after the identification
phase. -/
inductive SmartDispatch where
  | scoresOnly (course : Course)
  | fullPath
deriving DecidableEq, Repr

/-- The dispatch logic of `_extract_smart` after the identification call:
`if course_name:` (Python truthiness, so `None` and the empty string skip the
lookup), then scores-only on a found course, else full. -/
def smart_dispatch (ident : RawCourseIdentification)
    (find_course_by_name : String → Option String → Option Course) :
    SmartDispatch :=
  let found_course : Option Course :=
    match ident.course_name.value with
    | some n =>
      if n.isEmpty then none
      else find_course_by_name n ident.course_location.value
    | none => none
  match found_course with
  | some c => SmartDispatch.scoresOnly c
  | none => SmartDispatch.fullPath

/-- The supported file suffixes (keys of `MIME_TYPES`). -/
def mimeSuffixes : List String :=
  [r".jpg", r".jpeg", r".png", r".webp", r".heic", r".pdf"]

/-- The `ExtractionStrategy` enum values (src/llm/strategies.py); it is a
string enum, so unknown strings model out-of-range strategy values. -/
def strategyFull : String := r"full"

def strategyScoresOnly : String := r"scores_only"

def strategySmart : String := r"smart"

/-- The model call that `extract_scorecard` goes on to make; producing one of
these is what "a model call is made" means in this embedding. -/
inductive ExtractAction where
  | callModelFull
  | callModelScoresOnly (course : Course)
  | callModelSmart
deriving DecidableEq, Repr

/-- The errors `extract_scorecard` can raise before any model call. -/
inductive ExtractError where
  | fileNotFound
  | unsupportedFileType (suffix : String)
  | missingApiKey
  | valueError (msg : String)
deriving DecidableEq, Repr

def scoresOnlyRequiresCourseMsg : String :=
  r"SCORES_ONLY strategy requires the `course` parameter. "
    ++ r"Pass the known Course model from your database."

def unknownStrategyMsg (strategy : String) : String :=
  r"Unknown strategy: " ++ strategy

/-- `extract_scorecard` (src/llm/scorecard_extractor.py) up to its first
model call: the existence / file-type / credential checks followed by the
strategy dispatch.  `suffix` is the already-lowercased file suffix
(`path.suffix.lower()` in `_get_mime_type`).  An `Except.error` is raised
before any model call; an `Except.ok` action is the model call the chosen
strategy then performs. -/
def extract_scorecard (file_exists : Bool) (suffix : String)
    (api_key_set : Bool) (strategy : String) (course : Option Course) :
    Except ExtractError ExtractAction :=
  if !file_exists then Except.error ExtractError.fileNotFound
  else if !(mimeSuffixes.contains suffix) then
    Except.error (ExtractError.unsupportedFileType suffix)
  else if !api_key_set then Except.error ExtractError.missingApiKey
  else if strategy = strategyFull then Except.ok ExtractAction.callModelFull
  else if strategy = strategyScoresOnly then
    match course with
    | none => Except.error (ExtractError.valueError scoresOnlyRequiresCourseMsg)
    | some c => Except.ok (ExtractAction.callModelScoresOnly c)
  else if strategy = strategySmart then Except.ok ExtractAction.callModelSmart
  else Except.error (ExtractError.valueError (unknownStrategyMsg strategy))

-- ---------------------------------------------------------------------------
-- THEOREMS
-- ---------------------------------------------------------------------------

-- Helper lemmas about `List.foldl min` and `minOrZero`.

theorem foldl_min_le_init (xs : List ℚ) (x : ℚ) : xs.foldl min x ≤ x := by
  induction xs generalizing x with
  | nil => simp
  | cons a as ih =>
    simp only [List.foldl]
    exact le_trans (ih (min x a)) (min_le_left x a)

theorem foldl_min_le_mem (xs : List ℚ) (x y : ℚ) (hy : y ∈ xs) :
    xs.foldl min x ≤ y := by
  induction xs generalizing x with
  | nil => cases hy
  | cons a as ih =>
    simp only [List.foldl]
    rcases List.mem_cons.mp hy with h | h
    · subst h
      exact le_trans (foldl_min_le_init as (min x y)) (min_le_right x y)
    · exact ih (min x a) h

theorem foldl_min_mem (xs : List ℚ) (x : ℚ) : xs.foldl min x ∈ x :: xs := by
  induction xs generalizing x with
  | nil => simp
  | cons a as ih =>
    simp only [List.foldl]
    rcases List.mem_cons.mp (ih (min x a)) with h | h
    · rcases min_choice x a with hc | hc
      · rw [h, hc]
        exact List.mem_cons_self _ _
      · rw [h, hc]
        exact List.mem_cons_of_mem _ (List.mem_cons_self _ _)
    · exact List.mem_cons_of_mem _ (List.mem_cons_of_mem _ h)

theorem minOrZero_nil : minOrZero [] = 0 := rfl

theorem minOrZero_mem {l : List ℚ} (h : l ≠ []) : minOrZero l ∈ l := by
  match l with
  | [] => exact absurd rfl h
  | x :: xs => exact foldl_min_mem xs x

theorem minOrZero_le {l : List ℚ} (y : ℚ) (hy : y ∈ l) : minOrZero l ≤ y := by
  match l with
  | x :: xs =>
    rcases List.mem_cons.mp hy with h | h
    · subst h
      exact foldl_min_le_init xs y
    · exact foldl_min_le_mem xs x y h

theorem roundHalfEven_floor_form (q : ℚ) :
    roundHalfEven q =
      (let f : ℤ := ⌊q⌋
      let r : ℚ := q - f
      if r < 1/2 then f
      else if 1/2 < r then f + 1
      else if f % 2 = 0 then f else f + 1) := by
  unfold roundHalfEven
  rw [← Rat.floor_def]

theorem roundHalfEven_nonneg {q : ℚ} (hq : 0 ≤ q) : 0 ≤ roundHalfEven q := by
  rw [roundHalfEven_floor_form]
  have hf : (0 : ℤ) ≤ ⌊q⌋ := Int.le_floor.mpr (by exact_mod_cast hq)
  dsimp only
  split
  · exact hf
  · split
    · omega
    · split
      · exact hf
      · omega

theorem roundHalfEven_le {q : ℚ} {N : ℤ} (hq : q ≤ N) : roundHalfEven q ≤ N := by
  rw [roundHalfEven_floor_form]
  have hfle : ⌊q⌋ ≤ N := by
    have h := (Int.floor_le q).trans hq
    exact_mod_cast h
  dsimp only
  by_cases hEq : ⌊q⌋ = N
  · -- then q = N exactly, so the fractional part is 0 and we keep the floor
    have hqN : q = (N : ℚ) := by
      have h1 : (N : ℚ) ≤ q := by
        have := Int.floor_le q
        rw [hEq] at this
        exact_mod_cast this
      exact le_antisymm hq h1
    have hr : q - (⌊q⌋ : ℚ) = 0 := by
      rw [hEq, hqN]
      ring
    rw [hr]
    norm_num
    omega
  · have hlt : ⌊q⌋ + 1 ≤ N := by omega
    split
    · exact hfle
    · split
      · exact hlt
      · split
        · exact hfle
        · exact hlt

theorem roundHalfEven_zero : roundHalfEven 0 = 0 := by
  rw [roundHalfEven_floor_form]
  norm_num

theorem round4_nonneg {q : ℚ} (hq : 0 ≤ q) : 0 ≤ round4 q := by
  unfold round4
  have h : 0 ≤ roundHalfEven (q * 10000) :=
    roundHalfEven_nonneg (by positivity)
  positivity

theorem round4_le_one {q : ℚ} (hq : q ≤ 1) : round4 q ≤ 1 := by
  unfold round4
  have h : roundHalfEven (q * 10000) ≤ (10000 : ℤ) :=
    roundHalfEven_le (by push_cast; linarith)
  rw [div_le_one (by norm_num)]
  exact_mod_cast h

theorem round4_zero : round4 0 = 0 := by
  unfold round4
  rw [zero_mul, roundHalfEven_zero]
  norm_num

/-- C1: For every pair of a model (LLM) confidence `m` and a validation
confidence `v`, both in `[0,1]`, the final field confidence computed by
`FieldConfidence.compute_final` equals `round(m * v, 4)`, lies in `[0,1]`,
and equals `0` whenever `v = 0`, regardless of `m`. -/
theorem compute_final_spec (m v : ℚ) (hm0 : 0 ≤ m) (hm1 : m ≤ 1)
    (hv0 : 0 ≤ v) (hv1 : v ≤ 1) :
    compute_final m v = round4 (m * v) ∧
    0 ≤ compute_final m v ∧ compute_final m v ≤ 1 ∧
    (v = 0 → compute_final m v = 0) := by
  refine ⟨rfl, ?_, ?_, ?_⟩
  · exact round4_nonneg (by positivity)
  · have hmv : m * v ≤ 1 := by
      calc m * v ≤ 1 * 1 := by
            exact mul_le_mul hm1 hv1 hv0 (by norm_num)
        _ = 1 := by norm_num
    exact round4_le_one hmv
  · intro hv
    unfold compute_final
    rw [hv, mul_zero, round4_zero]

/-- Witness for C1 at `m = 9/10`, `v = 7/10`. -/
theorem compute_final_spec_witness :
    compute_final (9/10) (7/10) = round4 ((9/10) * (7/10)) ∧
    0 ≤ compute_final (9/10) (7/10) ∧ compute_final (9/10) (7/10) ≤ 1 ∧
    ((7/10 : ℚ) = 0 → compute_final (9/10) (7/10) = 0) :=
  compute_final_spec (9/10) (7/10) (by norm_num) (by norm_num)
    (by norm_num) (by norm_num)

/-- C2 counterexample: the claim asserts that when `to_par_scoring` is true
but the matching known hole's par does not exist, the stroke conversion
yields null.  At raw score `3`, missing par, `to_par_scoring = true`,
`_convert_score_to_strokes` returns the raw score `3` unchanged, not null. -/
theorem convert_score_missing_par_counterexample :
    convert_score_to_strokes (some 3) none true = some 3 ∧
    convert_score_to_strokes (some 3) none true ≠ none := by
  exact ⟨rfl, by simp [convert_score_to_strokes]⟩

/-- C2 (amended): the scores-only stroke conversion returns null when the
raw score is null; `par + raw` when `to_par_scoring` is true and the par
exists; the raw score unchanged when `to_par_scoring` is false; and when
`to_par_scoring` is true but the matching known hole's par does not exist,
it returns the raw score unchanged (not null). -/
theorem convert_score_to_strokes_spec (s par : Option ℤ) (tps : Bool) :
    (s = none → convert_score_to_strokes s par tps = none) ∧
    (∀ sv pv, s = some sv → tps = true → par = some pv →
      convert_score_to_strokes s par tps = some (pv + sv)) ∧
    (∀ sv, s = some sv → tps = false →
      convert_score_to_strokes s par tps = some sv) ∧
    (∀ sv, s = some sv → tps = true → par = none →
      convert_score_to_strokes s par tps = some sv) := by
  refine ⟨?_, ?_, ?_, ?_⟩
  · intro h
    subst h
    rfl
  · intro sv pv hs ht hp
    subst hs
    subst ht
    subst hp
    rfl
  · intro sv hs ht
    subst hs
    subst ht
    rcases par with _ | pv <;> rfl
  · intro sv hs ht hp
    subst hs
    subst ht
    subst hp
    rfl

/-- Witness for C2 (amended), the spec's Scenario E: `to_par_scoring`,
hole par 4, raw score +1, converted strokes 5. -/
theorem convert_score_to_strokes_spec_witness :
    convert_score_to_strokes (some 1) (some 4) true = some 5 :=
  (convert_score_to_strokes_spec (some 1) (some 4) true).2.1 1 4 rfl rfl rfl

-- Helper lemmas for the construction-validation analysis.

theorem exceptMapList_ok_forall {α β : Type} (f : α → Except String β)
    (l : List α) (ys : List β) (h : exceptMapList f l = Except.ok ys) :
    ∀ x ∈ l, ∃ y ∈ ys, f x = Except.ok y := by
  induction l generalizing ys with
  | nil =>
    intro x hx
    cases hx
  | cons a as ih =>
    intro x hx
    unfold exceptMapList at h
    rcases hfa : f a with e | y
    · rw [hfa] at h
      exact Except.noConfusion h
    · rw [hfa] at h
      rcases hrest : exceptMapList f as with e | ys2
      · rw [hrest] at h
        exact Except.noConfusion h
      · rw [hrest] at h
        injection h with h'
        subst h'
        rcases List.mem_cons.mp hx with rfl | hx'
        · exact ⟨y, List.mem_cons_self _ _, hfa⟩
        · obtain ⟨y', hy', hfy'⟩ := ih ys2 hrest x hx'
          exact ⟨y', List.mem_cons_of_mem _ hy', hfy'⟩

theorem mkTee_ok_color (color : Option String) (sr cr : Option ℚ)
    (yd : List (ℤ × ℤ)) (t : Tee)
    (h : mkTee color sr cr yd = Except.ok t) : t.color = color := by
  unfold mkTee at h
  split_ifs at h
  rcases hf : yd.find?
      (fun e => e.1 < 1 ∨ e.1 > 18 ∨ e.2 < 0 ∨ e.2 > 700) with _ | e
  · simp only [hf] at h
    injection h with h'
    subst h'
    rfl
  · simp only [hf] at h
    exact Except.noConfusion h

theorem mkCourse_ok_find (name location : Option String)
    (sr cr : List (String × ℚ)) (par : Option ℤ) (holes : List Hole)
    (tees : List Tee) (c : Course)
    (h : mkCourse name location sr cr par holes tees = Except.ok c) :
    tees.find? (teeInconsistent sr cr) = none := by
  unfold mkCourse at h
  rcases h1 : sr.find? (fun e => e.2 < 55 ∨ e.2 > 155) with _ | e1
  · simp only [h1] at h
    rcases h2 : cr.find? (fun e => e.2 < 55 ∨ e.2 > 85) with _ | e2
    · simp only [h2] at h
      split_ifs at h
      rcases h3 : tees.find? (teeInconsistent sr cr) with _ | t
      · rfl
      · simp only [h3] at h
        exact Except.noConfusion h
    · simp only [h2] at h
      exact Except.noConfusion h
  · simp only [h1] at h
    exact Except.noConfusion h

/-- C9 counterexample: the claim asserts that when the `tee_played` value is
null, the built Round's `tee_box` falls back to the first extracted tee's
color.  A first tee colored with the *empty string* passes every
construction validator (`if tee.color:` is falsy on `""`), so `_build_round`
returns a Round — with `tee_box = None`, not the first tee's color `""`:
there is no fallback.  (A tee with a truthy color such as "blue" never gets
that far: `Course` construction raises "Tee 'blue' missing slope rating",
as the last conjunct shows.) -/
theorem build_round_tee_box_counterexample :
    ({ tee_played := {},
       tees := [{ color := { value := some (r""), confidence := 1 } }] }
        : RawScorecardExtraction).tee_played.value = none ∧
    (({ tee_played := {},
        tees := [{ color := { value := some (r""), confidence := 1 } }] }
        : RawScorecardExtraction).tees.map (fun t => t.color.value)).head?
      = some (some (r"")) ∧
    (build_round
      { tee_played := {},
        tees := [{ color := { value := some (r""), confidence := 1 } }] }
      ).map (fun rnd => rnd.tee_box) = Except.ok none ∧
    (build_round
      { tee_played := {},
        tees := [{ color := { value := some (r""), confidence := 1 } }] }
      ).map (fun rnd => rnd.tee_box) ≠ Except.ok (some (r"")) ∧
    build_round
      { tee_played := {},
        tees := [{ color := { value := some (r"blue"), confidence := 1 } }] }
      = Except.error (teeMissingSlopeMsg (r"blue")) := by
  refine ⟨rfl, rfl, rfl, ?_, rfl⟩
  intro h
  injection h with h'
  exact Option.noConfusion h'

/-- C9 (amended): for every full extraction from which `_build_round`
successfully returns a Round, `tee_box` is the dedicated `tee_played`
field's value — in particular it stays null when that value is null, with
no fallback to the first extracted tee's color.  Moreover construction
succeeds only when every extracted tee color is null or the empty string
(a truthy-colored tee fails `Course`'s tee-rating-consistency validation),
so the claimed fallback could never have produced a non-empty color. -/
theorem build_round_tee_box_spec (raw : RawScorecardExtraction)
    (rnd : Round) (h : build_round raw = Except.ok rnd) :
    rnd.tee_box = raw.tee_played.value ∧
    (∀ t ∈ raw.tees, ∀ c, t.color.value = some c → c.isEmpty = true) := by
  unfold build_round at h
  rcases hbc : build_course raw with e | course
  · simp only [hbc] at h
    exact Except.noConfusion h
  · simp only [hbc] at h
    rcases hbs : build_hole_scores raw with e | hss
    · simp only [hbs] at h
      exact Except.noConfusion h
    · simp only [hbs] at h
      injection h with h'
      constructor
      · rw [← h']
      · intro t ht c hcol
        unfold build_course at hbc
        rcases hh : exceptMapList buildRawHole raw.holes with e | holes
        · simp only [hh] at hbc
          exact Except.noConfusion hbc
        · simp only [hh] at hbc
          rcases hts : exceptMapList buildRawTee raw.tees with e | tees
          · simp only [hts] at hbc
            exact Except.noConfusion hbc
          · simp only [hts] at hbc
            obtain ⟨y, hy, hfy⟩ := exceptMapList_ok_forall _ _ _ hts t ht
            have hyc : y.color = t.color.value :=
              mkTee_ok_color _ _ _ _ _ hfy
            have hfind := mkCourse_ok_find _ _ _ _ _ _ _ _ hbc
            have hnone := List.find?_eq_none.mp hfind y hy
            unfold teeInconsistent at hnone
            rw [hyc, hcol] at hnone
            simp [dictHasKey] at hnone
            exact hnone

/-- Witness for C9 (amended) at the empty-string-colored tee: the built
Round's `tee_box` equals the (null) `tee_played` value. -/
theorem build_round_tee_box_spec_witness :
    ({ course := some { tees := [{ color := some (r"") }] } } : Round).tee_box
      = ({ tee_played := {},
           tees := [{ color := { value := some (r""), confidence := 1 } }] }
          : RawScorecardExtraction).tee_played.value :=
  (build_round_tee_box_spec
    { tee_played := {},
      tees := [{ color := { value := some (r""), confidence := 1 } }] }
    { course := some { tees := [{ color := some (r"") }] } } rfl).1

/-- C3: for every hole confidence built by `_build_hole_confidence`,
`overall` is the minimum of `final_confidence` over exactly those fields
whose underlying raw value is non-null, `0` when no field has a non-null raw
value, and `level` is the bucket of that overall.  Exactly as in the code
(which probes `getattr(raw_hole, name).value is not None` generically), the
raw hole enters only through its per-field non-nullness predicate
`attrNonNull` — `RawHoleData.attrNonNull` on the full path and
`RawScoreOnlyHoleData.attrNonNull` on the scores-only path. -/
theorem build_hole_confidence_overall_spec (attrNonNull : String → Bool)
    (hole_index : ℕ) (field_map : List (String × ℚ))
    (val_results : List (String × ℚ × List String)) :
    (let hc := build_hole_confidence hole_index attrNonNull field_map
      val_results
    let nonNullFinals :=
      (hc.fields.filter (fun p => attrNonNull p.2.field_name)).map
        (fun p => p.2.final_confidence)
    (nonNullFinals = [] → hc.overall = 0) ∧
    (nonNullFinals ≠ [] → hc.overall ∈ nonNullFinals) ∧
    (∀ y ∈ nonNullFinals, hc.overall ≤ y) ∧
    hc.level = to_level hc.overall) := by
  intro hc nonNullFinals
  have hov : hc.overall = minOrZero nonNullFinals := rfl
  refine ⟨?_, ?_, ?_, rfl⟩
  · intro hnil
    rw [hov, hnil, minOrZero_nil]
  · intro hne
    rw [hov]
    exact minOrZero_mem hne
  · intro y hy
    rw [hov]
    exact minOrZero_le y hy

/-- Witness for C3: a raw hole with all-null values yields `overall = 0`. -/
theorem build_hole_confidence_overall_spec_witness :
    (build_hole_confidence 0 (RawHoleData.attrNonNull {})
      (fullHoleFieldMap {}) (validate_hole_score {} 0)).overall = 0 :=
  (build_hole_confidence_overall_spec (RawHoleData.attrNonNull {}) 0
    (fullHoleFieldMap {}) (validate_hole_score {} 0)).1 (by decide)

/-- C4: for every assembled `ExtractionConfidence`, `overall` is the minimum
over all hole overalls, the course overall and all round-level field finals
(`0` if that collection were empty — it never is, since the course overall is
always present), and `fields_needing_review` has exactly one entry per field
whose level is LOW or VERY_LOW (hence none for MEDIUM or HIGH fields). -/
theorem assemble_extraction_confidence_spec
    (hole_confidences : List HoleConfidence)
    (course_confidence : CourseConfidence)
    (round_fields : List (String × FieldConfidence)) :
    (let ec := assemble_extraction_confidence hole_confidences
      course_confidence round_fields
    let allFinals :=
      hole_confidences.map (fun hc => hc.overall)
        ++ [course_confidence.overall]
        ++ round_fields.map (fun p => p.2.final_confidence)
    (ec.overall ∈ allFinals) ∧
    (∀ y ∈ allFinals, ec.overall ≤ y) ∧
    (allFinals = [] → ec.overall = 0) ∧
    ec.fields_needing_review.length =
      (hole_confidences.map
        (fun hc => hc.fields.countP (fun p => needsReview p.2.level))).sum
        + course_confidence.fields.countP (fun p => needsReview p.2.level)
        + round_fields.countP (fun p => needsReview p.2.level)) := by
  intro ec allFinals
  have hov : ec.overall = minOrZero allFinals := rfl
  have hne : allFinals ≠ [] := by
    intro h
    have := congrArg List.length h
    simp [allFinals] at this
  refine ⟨?_, ?_, ?_, ?_⟩
  · rw [hov]
    exact minOrZero_mem hne
  · intro y hy
    rw [hov]
    exact minOrZero_le y hy
  · intro h
    exact absurd h hne
  · show (collect_fields_needing_review hole_confidences
      course_confidence.fields round_fields).length = _
    simp [collect_fields_needing_review, List.countP_eq_length_filter,
      Function.comp_def, List.length_map]
    omega

/-- Witness for C4: with no holes and no round fields, the overall is
bounded by the course overall (which is in the collection). -/
theorem assemble_extraction_confidence_spec_witness :
    (assemble_extraction_confidence [] databaseCourseConfidence []).overall
      ≤ databaseCourseConfidence.overall :=
  (assemble_extraction_confidence_spec [] databaseCourseConfidence []).2.1
    databaseCourseConfidence.overall (by simp)

/-- C5 counterexample: the claim as stated fails for a non-null but *empty*
identified course name.  `_extract_smart` guards the lookup with Python
truthiness (`if course_name:`), so with `course_name.value = ""` and a
repository whose lookup returns a course for every query, the dispatcher
takes the FULL path, not SCORES_ONLY. -/
theorem smart_dispatch_counterexample :
    ({ course_name := { value := some (r""), confidence := 1 },
       course_location := { value := some (r"CA"), confidence := 1 } }
        : RawCourseIdentification).course_name.value = some (r"") ∧
    (fun (_ : String) (_ : Option String) =>
        some ({ name := some (r"Pebble Beach") } : Course)) (r"")
        (some (r"CA"))
      = some ({ name := some (r"Pebble Beach") } : Course) ∧
    smart_dispatch
      { course_name := { value := some (r""), confidence := 1 },
        course_location := { value := some (r"CA"), confidence := 1 } }
      (fun _ _ => some { name := some (r"Pebble Beach") })
      = SmartDispatch.fullPath ∧
    SmartDispatch.fullPath
      ≠ SmartDispatch.scoresOnly { name := some (r"Pebble Beach") } := by
  exact ⟨rfl, rfl, rfl, by simp⟩

/-- C5 (amended): for every SMART extraction where the identification phase
yields a non-null, *non-empty* course name and the repository lookup returns
a course, the dispatcher takes the SCORES_ONLY path with that course, and
the scores-only course confidence is the fixed database one
(`overall = 1.0`, level HIGH, a single `source` field built with
`source="database"`); when the lookup returns null, or the identified name
is null, or the identified name is non-null but *empty* (regardless of what
the repository would return — the lookup is skipped), the dispatcher takes
the FULL path. -/
theorem smart_dispatch_spec (ident : RawCourseIdentification)
    (find_course_by_name : String → Option String → Option Course) :
    (∀ n c, ident.course_name.value = some n → n.isEmpty = false →
      find_course_by_name n ident.course_location.value = some c →
      smart_dispatch ident find_course_by_name
        = SmartDispatch.scoresOnly c) ∧
    (ident.course_name.value = none →
      smart_dispatch ident find_course_by_name = SmartDispatch.fullPath) ∧
    (∀ n, ident.course_name.value = some n → n.isEmpty = true →
      smart_dispatch ident find_course_by_name = SmartDispatch.fullPath) ∧
    (∀ n, ident.course_name.value = some n →
      find_course_by_name n ident.course_location.value = none →
      smart_dispatch ident find_course_by_name = SmartDispatch.fullPath) ∧
    (∀ (raw : RawScoresOnlyExtraction) (course : Course),
      (build_scores_only_confidence raw course).course
        = some databaseCourseConfidence) ∧
    databaseCourseConfidence.overall = 1 ∧
    databaseCourseConfidence.level = ConfidenceLevel.high := by
  refine ⟨?_, ?_, ?_, ?_, fun _ _ => rfl, rfl, rfl⟩
  · intro n c hn hne hf
    simp [smart_dispatch, hn, hne, hf]
  · intro h
    simp [smart_dispatch, h]
  · intro n hn he
    simp [smart_dispatch, hn, he]
  · intro n hn hf
    by_cases he : n.isEmpty <;> simp [smart_dispatch, hn, he, hf]

/-- Witness for C5 (amended): spec Scenario D, identification returns
("Pebble Beach", "CA") and the repository finds a matching course. -/
theorem smart_dispatch_spec_witness :
    smart_dispatch
      { course_name := { value := some (r"Pebble Beach"), confidence := 1 },
        course_location := { value := some (r"CA"), confidence := 1 } }
      (fun _ _ => some { name := some (r"Pebble Beach") })
      = SmartDispatch.scoresOnly { name := some (r"Pebble Beach") } :=
  (smart_dispatch_spec _ _).1 (r"Pebble Beach") _ rfl (by decide) rfl

/-- C6: with the file present, a supported suffix and credentials set (so
that none of the earlier checks fire), `extract_scorecard` with
SCORES_ONLY and no course returns the precondition `ValueError` without
producing a model-call action; likewise for a strategy value outside
{full, scores_only, smart}; and with SCORES_ONLY plus a course it proceeds
to the model call with no error. -/
theorem extract_scorecard_preconditions (suffix : String)
    (course : Option Course)
    (hsuf : mimeSuffixes.contains suffix = true) :
    (extract_scorecard true suffix true strategyScoresOnly none
      = Except.error (ExtractError.valueError scoresOnlyRequiresCourseMsg)) ∧
    (∀ s : String, s ≠ strategyFull → s ≠ strategyScoresOnly →
      s ≠ strategySmart →
      extract_scorecard true suffix true s course
        = Except.error (ExtractError.valueError (unknownStrategyMsg s))) ∧
    (∀ c : Course,
      extract_scorecard true suffix true strategyScoresOnly (some c)
        = Except.ok (ExtractAction.callModelScoresOnly c)) := by
  have hmem : suffix ∈ mimeSuffixes := by simpa using hsuf
  refine ⟨?_, ?_, ?_⟩
  · simp [extract_scorecard, hmem, strategyScoresOnly, strategyFull]
  · intro s h1 h2 h3
    simp [extract_scorecard, hmem, h1, h2, h3]
  · intro c
    simp [extract_scorecard, hmem, strategyScoresOnly, strategyFull]

/-- Witness for C6 at the concrete suffix ".jpg". -/
theorem extract_scorecard_preconditions_witness :
    extract_scorecard true (r".jpg") true strategyScoresOnly none
      = Except.error (ExtractError.valueError scoresOnlyRequiresCourseMsg) :=
  (extract_scorecard_preconditions (r".jpg") none (by decide)).1

/-- C10: in the full-extraction path, the course confidence `overall` is the
minimum of `final_confidence` over *every* field of the course map — no
non-null-source filtering, unlike the hole overalls — and `0` only were the
field map empty; and this is exactly the course component that
`_build_extraction_confidence` puts into the `ExtractionConfidence`. -/
theorem build_course_confidence_full_spec (raw : RawScorecardExtraction) :
    (let cc := build_course_confidence_full raw
    let finals := cc.fields.map (fun p => p.2.final_confidence)
    (cc.fields = [] → cc.overall = 0) ∧
    (cc.fields ≠ [] → cc.overall ∈ finals) ∧
    (∀ y ∈ finals, cc.overall ≤ y) ∧
    cc.level = to_level cc.overall ∧
    (build_extraction_confidence raw).course = some cc) := by
  intro cc finals
  have hov : cc.overall = minOrZero finals := rfl
  refine ⟨?_, ?_, ?_, rfl, rfl⟩
  · intro h
    have hf : finals = [] := by
      show cc.fields.map _ = []
      rw [h]
      rfl
    rw [hov, hf, minOrZero_nil]
  · intro h
    rw [hov]
    apply minOrZero_mem
    show cc.fields.map _ ≠ []
    simp [h]
  · intro y hy
    rw [hov]
    exact minOrZero_le y hy

/-- Witness for C10: on a course map whose `par` field has a *null* raw
value (with low confidence), the overall is still one of the field finals —
the null-valued field participates in the course-level minimum. -/
theorem build_course_confidence_full_spec_witness :
    (build_course_confidence_full
      { course := { name := { value := some (r"X"), confidence := 1 },
                    location := { value := some (r"Y"), confidence := 1 },
                    par := { value := none, confidence := 1/10 } } }).overall
      ∈ (build_course_confidence_full
      { course := { name := { value := some (r"X"), confidence := 1 },
                    location := { value := some (r"Y"), confidence := 1 },
                    par := { value := none, confidence := 1/10 } } }).fields.map
        (fun p => p.2.final_confidence) :=
  (build_course_confidence_full_spec _).2.1 (by decide)

/-- C7: `_validate_strokes_putts` assigns strokes validation confidence `0`
outside `[1,15]` and `0.7` on `(10,15]`; putts confidence `0` outside
`[0,10]` and `0.8` on `(4,10]`; when putts > strokes the putts confidence
becomes `0` and the strokes confidence is capped at `min(current, 0.3)`;
a null value never triggers a rule and an unviolated field keeps
confidence `1` with no flags. -/
theorem validate_strokes_putts_spec (s p : Option ℤ) :
    (let sBase : ℚ :=
      match s with
      | none => 1
      | some v => if v < 1 ∨ v > 15 then 0 else if v > 10 then 7/10 else 1
    let pBase : ℚ :=
      match p with
      | none => 1
      | some v => if v < 0 ∨ v > 10 then 0 else if v > 4 then 4/5 else 1
    let cross : Bool :=
      match s, p with
      | some sv, some pv => decide (pv > sv)
      | _, _ => false
    let sRes := dictGet (validate_strokes_putts s p) (r"strokes") (1, [])
    let pRes := dictGet (validate_strokes_putts s p) (r"putts") (1, [])
    sRes.1 = (if cross then min sBase (3/10) else sBase) ∧
    pRes.1 = (if cross then 0 else pBase) ∧
    (s = none → sRes = (1, [])) ∧
    (p = none → pRes.2 = []) ∧
    (∀ sv, s = some sv → 1 ≤ sv → sv ≤ 10 → cross = false →
      sRes = (1, [])) ∧
    (∀ pv, p = some pv → 0 ≤ pv → pv ≤ 4 → cross = false →
      pRes = (1, []))) := by
  rcases s with _ | sv <;> rcases p with _ | pv
  · simp [validate_strokes_putts, dictGet]
  · by_cases h1 : pv < 0 ∨ pv > 10 <;> by_cases h2 : pv > 4 <;>
      (simp [validate_strokes_putts, dictGet, h1, h2]; try omega)
  · by_cases h1 : sv < 1 ∨ sv > 15 <;> by_cases h2 : sv > 10 <;>
      (simp [validate_strokes_putts, dictGet, h1, h2]; try omega)
  · by_cases hc : pv > sv <;>
      by_cases h1 : sv < 1 ∨ sv > 15 <;> by_cases h2 : sv > 10 <;>
      by_cases h3 : pv < 0 ∨ pv > 10 <;> by_cases h4 : pv > 4 <;>
      simp [validate_strokes_putts, dictGet, hc, h1, h2, h3, h4] <;> omega

/-- Witness for C7 at strokes 9, putts 3 (in-range, putts ≤ strokes): the
strokes field is unviolated and keeps validation confidence 1 with no
flags. -/
theorem validate_strokes_putts_spec_witness :
    dictGet (validate_strokes_putts (some 9) (some 3)) (r"strokes") (1, [])
      = (1, []) :=
  (validate_strokes_putts_spec (some 9) (some 3)).2.2.2.2.1 9 rfl
    (by decide) (by decide) (by decide)

/-- C8: when the extracted `total_score` is non-null and at least one hole
has non-null strokes, `_validate_totals` gives `total_score` validation
confidence `0.2` exactly when the extracted total differs from the sum of
the non-null hole strokes, and `1.0` when they agree, absent the
front+back = total cross-check (which would floor an agreeing `1.0` down
to `0.3`). -/
theorem validate_totals_total_score_spec (totals : RawTotalsData)
    (holes_list : List RawHoleData) (t : ℤ)
    (h1 : totals.total_score.value = some t)
    (h2 : holes_list.filterMap (fun h => h.strokes.value) ≠ []) :
    (let strokesSum := (holes_list.filterMap (fun h => h.strokes.value)).sum
    let crossB : Bool :=
      match totals.front_nine_score.value, totals.back_nine_score.value with
      | some f, some b => decide (f + b ≠ t)
      | _, _ => false
    let conf := (dictGet (validate_totals totals holes_list) (r"total_score")
      (1, [])).1
    (conf = 1/5 ↔ strokesSum ≠ t) ∧
    (crossB = false → (conf = 1 ↔ strokesSum = t))) := by
  have hemp : (holes_list.filterMap (fun h => h.strokes.value)).isEmpty
      = false := by
    simpa [List.isEmpty_iff] using h2
  rcases hf : totals.front_nine_score.value with _ | f <;>
    rcases hb : totals.back_nine_score.value with _ | b <;>
    by_cases hsum : (holes_list.filterMap (fun h => h.strokes.value)).sum = t
  all_goals
    simp [validate_totals, dictGet, h1, hf, hb, hemp, hsum]
  all_goals
    by_cases hfb : f + b = t <;> (simp [hfb]; try norm_num)

/-- Witness for C8, the spec's Scenario C: extracted total 80, hole strokes
summing to 78, no front/back subtotals — validation confidence 0.2. -/
theorem validate_totals_total_score_spec_witness :
    (dictGet (validate_totals
      { total_score := { value := some 80, confidence := 1 } }
      [{ strokes := { value := some 40, confidence := 1 } },
       { strokes := { value := some 38, confidence := 1 } }])
      (r"total_score") (1, [])).1 = 1/5 :=
  (validate_totals_total_score_spec _ _ 80 rfl (by decide)).1.mpr (by decide)

end ScanScorecards
